import Mathlib

/-!
Verification development for the integration core in
`src/algorithms/model.ts` (age-stratified SEIR model with ICU capacity
constraint).

Embedding conventions:
* JS numbers are modelled as `ℚ`.  All theorems are stated over inputs on
  which the JS code performs no out-of-range array read, so the IEEE-754
  `NaN`/`undefined` propagation of JS never arises on the paths covered by
  the theorems; an out-of-range read `xs[i]` is rendered here as
  `xs.getD i 0` (resp. `getD i []`), which is only ever exercised on dead
  paths of the covered statements.
* `Date` values are `ℚ` millisecond timestamps (`new Date(ms)`, `valueOf`
  are the identity in this rendering).
* `Date.now()` is nondeterministic wall-clock input; it is modelled by an
  explicit clock parameter (`now`, resp. a clock function) threaded to
  each call site, so that clock-independence can be stated and proved.
* JS `Array.prototype.reduce((a,b) => a+b, 0)` is a left fold.
* Record fields keep the source names; the nested parameter records
  `P.frac.isolated` / `P.rate.*` are flattened to `fracIsolated` /
  `rate*` fields of one structure.
-/

namespace Covid

/-- Modelled from the spec: `msPerDay`, the number of milliseconds per day,
imported by `model.ts` from `./initialize` (that file is not part of the
provided sources). -/
def msPerDay : ℚ := 86400000

/-- `const eulerStep = 0.5` -/
def eulerStep : ℚ := 1 / 2

/-- JS `Math.round`: rounds half-way cases toward positive infinity. -/
def jsRound (q : ℚ) : ℤ := (q + 1 / 2).floor

/-- `export const eulerStepsPerDay = Math.round(1 / eulerStep)` -/
def eulerStepsPerDay : ℤ := jsRound (1 / eulerStep)

/-- The `sum` helper of `model.ts`: `arr.reduce((a, b) => a + b, 0)`. -/
def listSum (xs : List ℚ) : ℚ := xs.foldl (· + ·) 0

/-- The `gz` helper of `advanceState`: `x > 0 ? x : 0`. -/
def gz (x : ℚ) : ℚ := if x > 0 then x else 0

/-- `InternalCurrentData`: the per-age-group stock compartments. -/
structure InternalCurrentData where
  susceptible : List ℚ
  exposed : List (List ℚ)
  infectious : List ℚ
  severe : List ℚ
  critical : List ℚ
  overflow : List ℚ
deriving Repr, DecidableEq

/-- `InternalCumulativeData`: the per-age-group cumulative counters. -/
structure InternalCumulativeData where
  recovered : List ℚ
  hospitalized : List ℚ
  critical : List ℚ
  fatality : List ℚ
deriving Repr, DecidableEq

/-- `SimulationTimePoint`: a timestamp plus one state snapshot. -/
structure SimulationTimePoint where
  time : ℚ
  current : InternalCurrentData
  cumulative : InternalCumulativeData
deriving Repr, DecidableEq

/-- `ModelParams` (fields of `P` read by `model.ts`; the nested records
`P.frac.isolated` and `P.rate.*` are flattened). `rateInfection` is the
opaque time-varying callable `P.rate.infection`. -/
structure ModelParams where
  ICUBeds : ℚ
  populationServed : ℚ
  importsPerDay : List ℚ
  fracIsolated : List ℚ
  rateLatency : ℚ
  rateInfection : ℚ → ℚ
  rateRecovery : List ℚ
  rateSevere : List ℚ
  rateDischarge : List ℚ
  rateCritical : List ℚ
  rateStabilize : List ℚ
  rateFatality : List ℚ
  rateOverflowFatality : List ℚ

/-- `flux.infectious` sub-record of `StateFlux`. -/
structure InfectiousFlux where
  severe : List ℚ
  recovered : List ℚ
deriving Repr, DecidableEq

/-- `flux.severe` sub-record of `StateFlux`. -/
structure SevereFlux where
  critical : List ℚ
  recovered : List ℚ
deriving Repr, DecidableEq

/-- `flux.critical` sub-record of `StateFlux`. -/
structure CriticalFlux where
  severe : List ℚ
  fatality : List ℚ
deriving Repr, DecidableEq

/-- `flux.overflow` sub-record of `StateFlux`. -/
structure OverflowFlux where
  severe : List ℚ
  fatality : List ℚ
deriving Repr, DecidableEq

/-- `StateFlux`: all instantaneous inter-compartment flow rates. -/
structure StateFlux where
  susceptible : List ℚ
  exposed : List (List ℚ)
  infectious : InfectiousFlux
  severe : SevereFlux
  critical : CriticalFlux
  overflow : OverflowFlux
deriving Repr, DecidableEq

/-- `TimeDerivative`: net per-compartment pointwise rates of change. -/
structure TimeDerivative where
  current : InternalCurrentData
  cumulative : InternalCumulativeData
deriving Repr, DecidableEq

/-- `fluxes(time, pop, P)`: the Flux Calculator.  The main loop runs over
`age < pop.current.infectious.length` and fills every flux array at those
indices; it is rendered as `(List.range n).map`. -/
def fluxes (time : ℚ) (pop : SimulationTimePoint) (P : ModelParams) : StateFlux :=
  let fracInfected := listSum pop.current.infectious / P.populationServed
  let n := pop.current.infectious.length
  { susceptible := (List.range n).map fun age =>
      P.importsPerDay.getD age 0 +
        (1 - P.fracIsolated.getD age 0) * P.rateInfection time *
          pop.current.susceptible.getD age 0 * fracInfected
    exposed := (List.range n).map fun age =>
      let row := pop.current.exposed.getD age []
      (List.range row.length).map fun i =>
        P.rateLatency * row.getD i 0 * (row.length : ℚ)
    infectious :=
      { severe := (List.range n).map fun age =>
          pop.current.infectious.getD age 0 * P.rateSevere.getD age 0
        recovered := (List.range n).map fun age =>
          pop.current.infectious.getD age 0 * P.rateRecovery.getD age 0 }
    severe :=
      { critical := (List.range n).map fun age =>
          pop.current.severe.getD age 0 * P.rateCritical.getD age 0
        recovered := (List.range n).map fun age =>
          pop.current.severe.getD age 0 * P.rateDischarge.getD age 0 }
    critical :=
      { severe := (List.range n).map fun age =>
          pop.current.critical.getD age 0 * P.rateStabilize.getD age 0
        fatality := (List.range n).map fun age =>
          pop.current.critical.getD age 0 * P.rateFatality.getD age 0 }
    overflow :=
      { severe := (List.range n).map fun age =>
          pop.current.overflow.getD age 0 * P.rateStabilize.getD age 0
        fatality := (List.range n).map fun age =>
          pop.current.overflow.getD age 0 * P.rateOverflowFatality.getD age 0 } }

/-- `derivative(flux)`: the Derivative Assembler.  The running `fluxIn`
of the exposed chain is: the susceptible flux before stage 0, then the
flux out of the previous stage; after the loop it is the last chain flux
(or the susceptible flux if the chain is empty), rendered by `getLastD`. -/
def derivative (flux : StateFlux) : TimeDerivative :=
  let n := flux.susceptible.length
  { current :=
      { susceptible := (List.range n).map fun age => -(flux.susceptible.getD age 0)
        exposed := (List.range n).map fun age =>
          let frow := flux.exposed.getD age []
          (List.range frow.length).map fun i =>
            (if i = 0 then flux.susceptible.getD age 0 else frow.getD (i - 1) 0) -
              frow.getD i 0
        infectious := (List.range n).map fun age =>
          (flux.exposed.getD age []).getLastD (flux.susceptible.getD age 0) -
            flux.infectious.severe.getD age 0 - flux.infectious.recovered.getD age 0
        severe := (List.range n).map fun age =>
          flux.infectious.severe.getD age 0 + flux.critical.severe.getD age 0 +
              flux.overflow.severe.getD age 0 -
            flux.severe.critical.getD age 0 - flux.severe.recovered.getD age 0
        critical := (List.range n).map fun age =>
          flux.severe.critical.getD age 0 - flux.critical.severe.getD age 0 -
            flux.critical.fatality.getD age 0
        overflow := (List.range n).map fun age =>
          -(flux.overflow.severe.getD age 0 + flux.overflow.fatality.getD age 0) }
    cumulative :=
      { recovered := (List.range n).map fun age =>
          flux.infectious.recovered.getD age 0 + flux.severe.recovered.getD age 0
        hospitalized := (List.range n).map fun age =>
          flux.infectious.severe.getD age 0 + flux.infectious.severe.getD age 0
        critical := (List.range n).map fun age =>
          flux.severe.recovered.getD age 0 + flux.severe.recovered.getD age 0
        fatality := (List.range n).map fun age =>
          flux.critical.fatality.getD age 0 + flux.overflow.fatality.getD age 0 } }

/-- The Euler phase of `advanceState` restricted to `current`: for each
`age < pop.current.infectious.length` (the loop bound of the source) and
each field, `newPop[kind][compartment][age] = gz(pop[...] + dt*tdot[...])`.
`susceptible` is updated three times in the source with the identical
value; once suffices.  The `exposed` row is allocated with
`Array(tdot.current.exposed[age].length)` and then written at indices
`i < pop.current.exposed[age].length`, hence its final length is the max
of the two row lengths; cells never written (only possible on
shape-mismatched inputs, where JS leaves holes) are rendered as `0`. -/
def advCurrentEuler (pop : SimulationTimePoint) (tdot : TimeDerivative) (dt : ℚ) :
    InternalCurrentData :=
  let n := pop.current.infectious.length
  { susceptible := (List.range n).map fun age =>
      gz (pop.current.susceptible.getD age 0 + dt * tdot.current.susceptible.getD age 0)
    exposed := (List.range n).map fun age =>
      let prow := pop.current.exposed.getD age []
      let trow := tdot.current.exposed.getD age []
      (List.range (max prow.length trow.length)).map fun i =>
        if i < prow.length then gz (prow.getD i 0 + dt * trow.getD i 0) else 0
    infectious := (List.range n).map fun age =>
      gz (pop.current.infectious.getD age 0 + dt * tdot.current.infectious.getD age 0)
    severe := (List.range n).map fun age =>
      gz (pop.current.severe.getD age 0 + dt * tdot.current.severe.getD age 0)
    critical := (List.range n).map fun age =>
      gz (pop.current.critical.getD age 0 + dt * tdot.current.critical.getD age 0)
    overflow := (List.range n).map fun age =>
      gz (pop.current.overflow.getD age 0 + dt * tdot.current.overflow.getD age 0) }

/-- The Euler phase of `advanceState` restricted to `cumulative` (same
loop bound `pop.current.infectious.length`). -/
def advCumulativeEuler (pop : SimulationTimePoint) (tdot : TimeDerivative) (dt : ℚ) :
    InternalCumulativeData :=
  let n := pop.current.infectious.length
  { recovered := (List.range n).map fun age =>
      gz (pop.cumulative.recovered.getD age 0 + dt * tdot.cumulative.recovered.getD age 0)
    hospitalized := (List.range n).map fun age =>
      gz (pop.cumulative.hospitalized.getD age 0 + dt * tdot.cumulative.hospitalized.getD age 0)
    critical := (List.range n).map fun age =>
      gz (pop.cumulative.critical.getD age 0 + dt * tdot.cumulative.critical.getD age 0)
    fatality := (List.range n).map fun age =>
      gz (pop.cumulative.fatality.getD age 0 + dt * tdot.cumulative.fatality.getD age 0) }

/-- The first redistribution loop of `advanceState` (over capacity,
`freeICUBeds < 0`), which walks the age index DOWN from the end.  It is
rendered on the reversed list of `(critical[age], overflow[age])` pairs,
so the head of the argument is the OLDEST remaining age group.  Each
step reproduces the loop body exactly:
if `critical[age] > -free` then `critical[age] += free`,
`overflow[age] -= free`, `free = 0`; else `overflow[age] += critical[age]`,
`free += critical[age]`, `critical[age] = 0`.  The loop guard
`freeICUBeds < 0` is re-checked before each iteration. -/
def overCapGo : List (ℚ × ℚ) → ℚ → List (ℚ × ℚ) × ℚ
  | [], free => ([], free)
  | (c, o) :: rest, free =>
    if free < 0 then
      if c > -free then ((c + free, o - free) :: rest, 0)
      else
        let r := overCapGo rest (free + c)
        ((0, o + c) :: r.1, r.2)
    else ((c, o) :: rest, free)

/-- The second redistribution loop of `advanceState` (spare capacity,
`freeICUBeds > 0`), which walks the age index UP from 0; the head of the
argument is the YOUNGEST remaining age group.  Each step:
if `overflow[age] > free` then `critical[age] += free`,
`overflow[age] -= free`, `free = 0`; else `critical[age] += overflow[age]`,
`free -= overflow[age]`, `overflow[age] = 0`. -/
def underCapGo : List (ℚ × ℚ) → ℚ → List (ℚ × ℚ) × ℚ
  | [], free => ([], free)
  | (c, o) :: rest, free =>
    if free > 0 then
      if o > free then ((c + free, o - free) :: rest, 0)
      else
        let r := underCapGo rest (free - o)
        ((c + o, 0) :: r.1, r.2)
    else ((c, o) :: rest, free)

/-- The `(critical[age], overflow[age])` pair list after both
redistribution loops of `advanceState`.  `bound` is the iteration bound
of both source loops, `pop.current.critical.length` (the INPUT state's
critical array length); indices `≥ bound` are never visited by either
loop, hence the untouched `drop bound` tail.  The initial free-bed count
is `nICUBeds - sum(newPop.current.critical)` over the FULL updated
critical array.  The first (descending) loop runs on the reversed prefix,
the second (ascending) loop on the result, restored to ascending order. -/
def redistributeList (bound : ℕ) (beds : ℚ) (crit ovf : List ℚ) : List (ℚ × ℚ) :=
  (underCapGo
      (overCapGo ((crit.zip ovf).take bound).reverse (beds - listSum crit)).1.reverse
      (overCapGo ((crit.zip ovf).take bound).reverse (beds - listSum crit)).2).1
    ++ (crit.zip ovf).drop bound

/-- The full capacity-redistribution phase of `advanceState`: the new
`critical` and `overflow` arrays. -/
def redistribute (bound : ℕ) (beds : ℚ) (crit ovf : List ℚ) : List ℚ × List ℚ :=
  ((redistributeList bound beds crit ovf).map Prod.fst,
    (redistributeList bound beds crit ovf).map Prod.snd)

/-- `current` after `advanceState`: Euler update, then redistribution of
`critical`/`overflow` only. -/
def advCurrent (pop : SimulationTimePoint) (tdot : TimeDerivative) (dt beds : ℚ) :
    InternalCurrentData :=
  let cur := advCurrentEuler pop tdot dt
  let r := redistribute pop.current.critical.length beds cur.critical cur.overflow
  { cur with critical := r.1, overflow := r.2 }

/-- `advanceState(pop, tdot, dt, nICUBeds)`.  The source initialises the
fresh state with `time: Date.now()`; that wall-clock read is the explicit
`now` argument here. -/
def advanceState (now : ℚ) (pop : SimulationTimePoint) (tdot : TimeDerivative)
    (dt beds : ℚ) : SimulationTimePoint :=
  { time := now
    current := advCurrent pop tdot dt beds
    cumulative := advCumulativeEuler pop tdot dt }

/-- `InternalCurrentData` with all arrays empty. -/
def emptyCurrent : InternalCurrentData := ⟨[], [], [], [], [], []⟩

/-- `InternalCumulativeData` with all arrays empty. -/
def emptyCumulative : InternalCumulativeData := ⟨[], [], [], []⟩

/-- `TimeDerivative` with all arrays empty. -/
def emptyDerivative : TimeDerivative := ⟨emptyCurrent, emptyCumulative⟩

/-- One accumulation row of `sumDerivatives`:
`sum[age] += scale * grad[age]` for each `age` below the accumulator's
length (the source loop bound `grads[0].current.susceptible.length`,
which is the accumulator's length throughout). -/
def addScaledRow (w : ℚ) (acc g : List ℚ) : List ℚ :=
  acc.zipWith (fun x y => x + w * y) g

/-- One `grads.forEach` iteration of `sumDerivatives`: add `w · g` into
the accumulator, fieldwise; the `exposed` rows are accumulated
stage-by-stage. -/
def addScaled (w : ℚ) (acc g : TimeDerivative) : TimeDerivative :=
  { current :=
      { susceptible := addScaledRow w acc.current.susceptible g.current.susceptible
        exposed := acc.current.exposed.zipWith (fun ar gr => addScaledRow w ar gr)
          g.current.exposed
        infectious := addScaledRow w acc.current.infectious g.current.infectious
        severe := addScaledRow w acc.current.severe g.current.severe
        critical := addScaledRow w acc.current.critical g.current.critical
        overflow := addScaledRow w acc.current.overflow g.current.overflow }
    cumulative :=
      { recovered := addScaledRow w acc.cumulative.recovered g.cumulative.recovered
        hospitalized := addScaledRow w acc.cumulative.hospitalized g.cumulative.hospitalized
        critical := addScaledRow w acc.cumulative.critical g.cumulative.critical
        fatality := addScaledRow w acc.cumulative.fatality g.cumulative.fatality } }

/-- `sumDerivatives(grads, scale)`: the Stage Combiner.  It sizes every
accumulator array by `grads[0].current.susceptible.length` (the `exposed`
row for `age` by `grads[0].current.exposed[age].length`), zero-fills
them, and then folds `sum += scale[i] * grads[i]` over the gradients in
order. -/
def sumDerivatives (grads : List TimeDerivative) (scale : List ℚ) : TimeDerivative :=
  match grads with
  | [] => emptyDerivative
  | g0 :: rest =>
    let n := g0.current.susceptible.length
    let zeros := (List.range n).map fun _ => (0 : ℚ)
    let init : TimeDerivative :=
      { current :=
          { susceptible := zeros
            exposed := (List.range n).map fun age =>
              (g0.current.exposed.getD age []).map fun _ => (0 : ℚ)
            infectious := zeros
            severe := zeros
            critical := zeros
            overflow := zeros }
        cumulative :=
          { recovered := zeros, hospitalized := zeros, critical := zeros,
            fatality := zeros } }
    (((g0 :: rest).zip scale).foldl (fun acc gs => addScaled gs.2 acc gs.1) init)

/-- `stepODE(pop, P, dt)`: one RK4 step.  The `Date.now()` reads of the
three intermediate `advanceState` calls and of the final call are the
clock values `cl 0 .. cl 3`; the final `state.time = t2.valueOf()`
assignment overwrites the last one. -/
def stepODE (cl : ℕ → ℚ) (pop : SimulationTimePoint) (P : ModelParams) (dt : ℚ) :
    SimulationTimePoint :=
  let t0 := pop.time
  let t1 := pop.time + dt / 2 * msPerDay
  let t2 := pop.time + dt * msPerDay
  let k1 := derivative (fluxes t0 pop P)
  let k2 := derivative (fluxes t1 (advanceState (cl 0) pop k1 (dt / 2) P.ICUBeds) P)
  let k3 := derivative (fluxes t1 (advanceState (cl 1) pop k2 (dt / 2) P.ICUBeds) P)
  let k4 := derivative (fluxes t2 (advanceState (cl 2) pop k3 dt P.ICUBeds) P)
  let tdot := sumDerivatives [k1, k2, k3, k4] [1/6, 1/3, 1/3, 1/6]
  let state := advanceState (cl 3) pop tdot dt P.ICUBeds
  { state with time := t2 }

/-- The sub-step count of `evolve`:
`Math.max(1, Math.round(dT / eulerStep))` with `dT = tMax - pop.time`. -/
def nStepsOf (time tMax : ℚ) : ℤ := max 1 (jsRound ((tMax - time) / eulerStep))

/-- `evolve(pop, P, tMax, sample)`: the Trajectory Driver.  `sample` is
accepted and never used, exactly as in the source.  `cl i` is the clock
function supplied to the `i`-th `stepODE` call (four `Date.now()` reads
per step). -/
def evolve (cl : ℕ → ℕ → ℚ) (pop : SimulationTimePoint) (P : ModelParams)
    (tMax : ℚ) (sample : ℚ → ℚ) : SimulationTimePoint :=
  let dT := tMax - pop.time
  let nSteps := nStepsOf pop.time tMax
  let dt := dT / (nSteps : ℚ)
  (List.range nSteps.toNat).foldl (fun s i => stepODE (cl i) s P dt) pop

/-! ### Helper lemmas -/

theorem getD_range_map {α : Type} (f : ℕ → α) (d : α) {n a : ℕ} (h : a < n) :
    ((List.range n).map f).getD a d = f a := by
  have hlen : a < ((List.range n).map f).length := by simpa using h
  rw [List.getD_eq_getElem _ _ hlen, List.getElem_map, List.getElem_range]

theorem getD_range_map_ge {α : Type} (f : ℕ → α) (d : α) {n a : ℕ} (h : n ≤ a) :
    ((List.range n).map f).getD a d = d := by
  apply List.getD_eq_default
  simpa using h

theorem gz_nonneg (x : ℚ) : 0 ≤ gz x := by
  unfold gz; split <;> linarith

theorem gz_eq_max (x : ℚ) : gz x = max 0 x := by
  unfold gz
  rcases le_or_lt x 0 with h | h
  · simp [not_lt.mpr h, max_eq_left h]
  · simp [h, max_eq_right h.le]

theorem listSum_eq_sum (xs : List ℚ) : listSum xs = xs.sum := by
  have key : ∀ (l : List ℚ) (a : ℚ), l.foldl (· + ·) a = a + l.sum := by
    intro l
    induction l with
    | nil => intro a; simp
    | cons x t ih => intro a; simp [List.foldl_cons, ih, List.sum_cons]; ring
  simpa using key xs 0

theorem zipWith_getD {α β γ : Type} (f : α → β → γ) (dx : α) (dy : β) (dz : γ) :
    ∀ (xs : List α) (ys : List β) (a : ℕ), a < xs.length → a < ys.length →
      (List.zipWith f xs ys).getD a dz = f (xs.getD a dx) (ys.getD a dy) := by
  intro xs
  induction xs with
  | nil => intro ys a h; simp at h
  | cons x xt ih =>
    intro ys a hx hy
    cases ys with
    | nil => simp at hy
    | cons y yt =>
      cases a with
      | zero => simp
      | succ a =>
        simp only [List.zipWith_cons_cons, List.getD_cons_succ]
        exact ih yt a (by simpa using hx) (by simpa using hy)

/-! ### Test fixtures (shared by several witnesses) -/

/-- A well-shaped one-age-group state used as concrete witness input. -/
def Wpop : SimulationTimePoint :=
  { time := 0
    current :=
      { susceptible := [1000], exposed := [[2, 3]], infectious := [10],
        severe := [4], critical := [5], overflow := [6] }
    cumulative :=
      { recovered := [1], hospitalized := [2], critical := [3], fatality := [4] } }

/-- One-age-group parameters used as concrete witness input. -/
def WP : ModelParams :=
  { ICUBeds := 7, populationServed := 100, importsPerDay := [1/2],
    fracIsolated := [1/4], rateLatency := 3, rateInfection := fun _ => 2,
    rateRecovery := [1/2], rateSevere := [1/3], rateDischarge := [1/4],
    rateCritical := [1/5], rateStabilize := [1/6], rateFatality := [1/7],
    rateOverflowFatality := [1/8] }

/-- A one-age-group derivative used as concrete witness input. -/
def WTD : TimeDerivative :=
  { current :=
      { susceptible := [-2], exposed := [[1, -1]], infectious := [1],
        severe := [-10], critical := [2], overflow := [1] }
    cumulative :=
      { recovered := [1], hospitalized := [2], critical := [1], fatality := [1] } }

/-! ### Claims -/

/-- Claim C4: the claim states that `evolve` performs
`n = max(1, round((targetTime - state.time) / 0.5 day))` sub-steps, and in
particular 2 sub-steps for a one-day span.  The code computes
`Math.max(1, Math.round(dT / eulerStep))` where `dT = tMax - pop.time` is
in MILLISECONDS (state times are `Date` values) while `eulerStep = 0.5`
denominates DAYS, omitting the ms-per-day conversion that `stepODE`
itself applies when time-stamping (`dt * msPerDay`).  For a one-day span
the code therefore performs 172800000 sub-steps, not the 2 the spec
requires; the third conjunct shows that the same code applied to a span
measured in DAYS (span 1, as the spec's `totalSpan / 0.5 day` formula
denominates it) yields the specified 2 sub-steps. -/
theorem nStepsOf_one_day_unit_bug :
    nStepsOf 0 msPerDay = 172800000 ∧ nStepsOf 0 msPerDay ≠ 2 ∧ nStepsOf 0 1 = 2 := by
  have e1 : nStepsOf 0 msPerDay = 172800000 := by
    have hr : jsRound ((msPerDay - 0) / eulerStep) = 172800000 := by
      unfold jsRound
      show (⌊((msPerDay - 0) / eulerStep + 1 / 2 : ℚ)⌋ : ℤ) = 172800000
      rw [Int.floor_eq_iff]
      norm_num [msPerDay, eulerStep]
    unfold nStepsOf
    rw [hr, max_eq_right (by norm_num : (1 : ℤ) ≤ 172800000)]
  have e3 : nStepsOf 0 1 = 2 := by
    have hr : jsRound ((1 - 0) / eulerStep) = 2 := by
      unfold jsRound
      show (⌊((1 - 0) / eulerStep + 1 / 2 : ℚ)⌋ : ℤ) = 2
      rw [Int.floor_eq_iff]
      norm_num [eulerStep]
    unfold nStepsOf
    rw [hr, max_eq_right (by norm_num : (1 : ℤ) ≤ 2)]
  exact ⟨e1, by rw [e1]; norm_num, e3⟩

/-- Claim C5: per age group `a`, the susceptible→exposed flux is
`importsPerDay[a] + (1 - isolated[a]) · infectionRate(t) · susceptible[a]
· (Σ infectious / populationServed)`, and the flux out of exposed stage
`i` is `latencyRate · exposed[a][i] · numStages` with `numStages` the
chain length of that age group. -/
theorem fluxes_susceptible_exposed_formula (t : ℚ) (pop : SimulationTimePoint)
    (P : ModelParams) (a i : ℕ)
    (ha : a < pop.current.infectious.length)
    (hi : i < (pop.current.exposed.getD a []).length) :
    (fluxes t pop P).susceptible.getD a 0 =
      P.importsPerDay.getD a 0 + (1 - P.fracIsolated.getD a 0) * P.rateInfection t *
        pop.current.susceptible.getD a 0 *
        (listSum pop.current.infectious / P.populationServed)
    ∧ ((fluxes t pop P).exposed.getD a []).getD i 0 =
      P.rateLatency * (pop.current.exposed.getD a []).getD i 0 *
        ((pop.current.exposed.getD a []).length : ℚ) := by
  constructor
  · simp only [fluxes]
    rw [getD_range_map _ _ ha]
  · simp only [fluxes]
    rw [getD_range_map _ _ ha, getD_range_map _ _ hi]

/-- Witness for claim C5 at `t = 0`, `Wpop`, `WP`, `a = 0`, `i = 0`. -/
theorem fluxes_susceptible_exposed_formula_witness :
    0 < Wpop.current.infectious.length ∧ 0 < (Wpop.current.exposed.getD 0 []).length ∧
      ((fluxes 0 Wpop WP).susceptible.getD 0 0 =
        WP.importsPerDay.getD 0 0 + (1 - WP.fracIsolated.getD 0 0) * WP.rateInfection 0 *
          Wpop.current.susceptible.getD 0 0 *
          (listSum Wpop.current.infectious / WP.populationServed)
      ∧ ((fluxes 0 Wpop WP).exposed.getD 0 []).getD 0 0 =
        WP.rateLatency * (Wpop.current.exposed.getD 0 []).getD 0 0 *
          ((Wpop.current.exposed.getD 0 []).length : ℚ)) :=
  ⟨by decide, by decide,
    fluxes_susceptible_exposed_formula 0 Wpop WP 0 0 (by decide) (by decide)⟩

/-- Claim C6: the cumulative `hospitalized` derivative is exactly twice
the infectious→severe flux, the cumulative `critical` derivative is
exactly twice the severe→recovered flux (not the severe→critical flux),
cumulative `recovered` is infectious→recovered plus severe→recovered,
and cumulative `fatality` is critical→fatality plus overflow→fatality. -/
theorem derivative_cumulative_double_counting (flux : StateFlux) (a : ℕ)
    (ha : a < flux.susceptible.length) :
    (derivative flux).cumulative.hospitalized.getD a 0 =
      2 * flux.infectious.severe.getD a 0
    ∧ (derivative flux).cumulative.critical.getD a 0 =
      2 * flux.severe.recovered.getD a 0
    ∧ (derivative flux).cumulative.recovered.getD a 0 =
      flux.infectious.recovered.getD a 0 + flux.severe.recovered.getD a 0
    ∧ (derivative flux).cumulative.fatality.getD a 0 =
      flux.critical.fatality.getD a 0 + flux.overflow.fatality.getD a 0 := by
  refine ⟨?_, ?_, ?_, ?_⟩ <;>
    · simp only [derivative]
      rw [getD_range_map _ _ ha]
      try ring

/-- Witness for claim C6 at the flux set of `Wpop`/`WP` and `a = 0`. -/
theorem derivative_cumulative_double_counting_witness :
    0 < (fluxes 0 Wpop WP).susceptible.length ∧
      ((derivative (fluxes 0 Wpop WP)).cumulative.hospitalized.getD 0 0 =
        2 * (fluxes 0 Wpop WP).infectious.severe.getD 0 0
      ∧ (derivative (fluxes 0 Wpop WP)).cumulative.critical.getD 0 0 =
        2 * (fluxes 0 Wpop WP).severe.recovered.getD 0 0
      ∧ (derivative (fluxes 0 Wpop WP)).cumulative.recovered.getD 0 0 =
        (fluxes 0 Wpop WP).infectious.recovered.getD 0 0 +
          (fluxes 0 Wpop WP).severe.recovered.getD 0 0
      ∧ (derivative (fluxes 0 Wpop WP)).cumulative.fatality.getD 0 0 =
        (fluxes 0 Wpop WP).critical.fatality.getD 0 0 +
          (fluxes 0 Wpop WP).overflow.fatality.getD 0 0) :=
  ⟨by decide, derivative_cumulative_double_counting (fluxes 0 Wpop WP) 0 (by decide)⟩

/-- Two-age-group state with critical `[5, 5]`, overflow `[0, 0]` (claim
C3, first scenario: over capacity with `icuBeds = 7`). -/
def pop3 : SimulationTimePoint :=
  { time := 0
    current :=
      { susceptible := [0, 0], exposed := [[], []], infectious := [0, 0],
        severe := [0, 0], critical := [5, 5], overflow := [0, 0] }
    cumulative :=
      { recovered := [0, 0], hospitalized := [0, 0], critical := [0, 0],
        fatality := [0, 0] } }

/-- Two-age-group state with critical `[1, 1]`, overflow `[4, 4]` (claim
C3, second scenario: spare capacity with `icuBeds = 7`). -/
def pop3b : SimulationTimePoint :=
  { time := 0
    current :=
      { susceptible := [0, 0], exposed := [[], []], infectious := [0, 0],
        severe := [0, 0], critical := [1, 1], overflow := [4, 4] }
    cumulative :=
      { recovered := [0, 0], hospitalized := [0, 0], critical := [0, 0],
        fatality := [0, 0] } }

/-- The zero derivative on two age groups. -/
def zeroTD2 : TimeDerivative :=
  { current :=
      { susceptible := [0, 0], exposed := [[], []], infectious := [0, 0],
        severe := [0, 0], critical := [0, 0], overflow := [0, 0] }
    cumulative :=
      { recovered := [0, 0], hospitalized := [0, 0], critical := [0, 0],
        fatality := [0, 0] } }

/-- Claim C3: with two age groups, critical `[5, 5]`, overflow `[0, 0]`
and `icuBeds = 7` (deficit 3), the over-capacity loop walks ages oldest
first, so group 1 absorbs the whole deficit: critical becomes `[5, 2]`,
overflow `[0, 3]`.  Symmetrically, with critical `[1, 1]`, overflow
`[4, 4]` and `icuBeds = 7` (5 spare beds), the spare-capacity loop walks
ages youngest first: group 0 is drained back into critical before group
1, giving critical `[5, 2]`, overflow `[0, 3]`.  Both hold for every
step size `dt` (the derivative is zero) and every wall-clock value. -/
theorem advanceState_redistribution_order (now dt : ℚ) :
    ((advanceState now pop3 zeroTD2 dt 7).current.critical = [5, 2] ∧
      (advanceState now pop3 zeroTD2 dt 7).current.overflow = [0, 3]) ∧
    ((advanceState now pop3b zeroTD2 dt 7).current.critical = [5, 2] ∧
      (advanceState now pop3b zeroTD2 dt 7).current.overflow = [0, 3]) := by
  have h3 : advCurrentEuler pop3 zeroTD2 dt =
      ⟨[0, 0], [[], []], [0, 0], [0, 0], [5, 5], [0, 0]⟩ := by
    simp [advCurrentEuler, pop3, zeroTD2, gz, List.range_succ]
  have h3b : advCurrentEuler pop3b zeroTD2 dt =
      ⟨[0, 0], [[], []], [0, 0], [0, 0], [1, 1], [4, 4]⟩ := by
    simp [advCurrentEuler, pop3b, zeroTD2, gz, List.range_succ]
  constructor
  · constructor <;>
      · simp only [advanceState, advCurrent, h3]
        norm_num [redistribute, redistributeList, overCapGo, underCapGo, listSum, pop3]
  · constructor <;>
      · simp only [advanceState, advCurrent, h3b]
        norm_num [redistribute, redistributeList, overCapGo, underCapGo, listSum, pop3b]

/-! ### Lemmas about the redistribution loops -/

theorem overCapGo_map_add (ps : List (ℚ × ℚ)) (f : ℚ) :
    (overCapGo ps f).1.map (fun p => p.1 + p.2) = ps.map fun p => p.1 + p.2 := by
  induction ps generalizing f with
  | nil => simp [overCapGo]
  | cons p rest ih =>
    obtain ⟨c, o⟩ := p
    simp only [overCapGo]
    split
    · split
      · simp only [List.map_cons, List.cons.injEq]
        exact ⟨by ring, trivial⟩
      · simp only [List.map_cons, List.cons.injEq, ih]
        exact ⟨by ring, trivial⟩
    · rfl

theorem underCapGo_map_add (ps : List (ℚ × ℚ)) (f : ℚ) :
    (underCapGo ps f).1.map (fun p => p.1 + p.2) = ps.map fun p => p.1 + p.2 := by
  induction ps generalizing f with
  | nil => simp [underCapGo]
  | cons p rest ih =>
    obtain ⟨c, o⟩ := p
    simp only [underCapGo]
    split
    · split
      · simp only [List.map_cons, List.cons.injEq]
        exact ⟨by ring, trivial⟩
      · simp only [List.map_cons, List.cons.injEq, ih]
        exact ⟨by ring, trivial⟩
    · rfl

theorem overCapGo_length (ps : List (ℚ × ℚ)) (f : ℚ) :
    (overCapGo ps f).1.length = ps.length := by
  have h := congrArg List.length (overCapGo_map_add ps f)
  simpa using h

theorem underCapGo_length (ps : List (ℚ × ℚ)) (f : ℚ) :
    (underCapGo ps f).1.length = ps.length := by
  have h := congrArg List.length (underCapGo_map_add ps f)
  simpa using h

theorem map_add_zip (crit ovf : List ℚ) :
    (crit.zip ovf).map (fun p => p.1 + p.2) = List.zipWith (· + ·) crit ovf := by
  induction crit generalizing ovf with
  | nil => simp
  | cons c ct ih =>
    cases ovf with
    | nil => simp
    | cons o ot => simp [ih]

/-- Per-age conservation and lengths for the whole redistribution phase:
`critical[a] + overflow[a]` is unchanged, and both arrays keep the length
of the zipped input. -/
theorem redistributeList_map_add (bound : ℕ) (beds : ℚ) (crit ovf : List ℚ) :
    (redistributeList bound beds crit ovf).map (fun p => p.1 + p.2) =
      (crit.zip ovf).map fun p => p.1 + p.2 := by
  unfold redistributeList
  rw [List.map_append, underCapGo_map_add, List.map_reverse, overCapGo_map_add,
    List.map_reverse, List.reverse_reverse, ← List.map_append, List.take_append_drop]

theorem redistributeList_length (bound : ℕ) (beds : ℚ) (crit ovf : List ℚ) :
    (redistributeList bound beds crit ovf).length = (crit.zip ovf).length := by
  have h := congrArg List.length (redistributeList_map_add bound beds crit ovf)
  simpa using h

theorem redistribute_spec (bound : ℕ) (beds : ℚ) (crit ovf : List ℚ) :
    List.zipWith (· + ·) (redistribute bound beds crit ovf).1
        (redistribute bound beds crit ovf).2 = List.zipWith (· + ·) crit ovf
    ∧ (redistribute bound beds crit ovf).1.length = (crit.zip ovf).length
    ∧ (redistribute bound beds crit ovf).2.length = (crit.zip ovf).length := by
  unfold redistribute
  refine ⟨?_, by simp [redistributeList_length], by simp [redistributeList_length]⟩
  calc List.zipWith (· + ·) ((redistributeList bound beds crit ovf).map Prod.fst)
        ((redistributeList bound beds crit ovf).map Prod.snd)
      = (redistributeList bound beds crit ovf).map fun p => p.1 + p.2 := by
        rw [List.zipWith_map, List.zipWith_same]
    _ = (crit.zip ovf).map fun p => p.1 + p.2 := redistributeList_map_add bound beds crit ovf
    _ = List.zipWith (· + ·) crit ovf := map_add_zip crit ovf

theorem advCurrentEuler_lengths (pop : SimulationTimePoint) (tdot : TimeDerivative)
    (dt : ℚ) :
    (advCurrentEuler pop tdot dt).susceptible.length = pop.current.infectious.length
    ∧ (advCurrentEuler pop tdot dt).exposed.length = pop.current.infectious.length
    ∧ (advCurrentEuler pop tdot dt).infectious.length = pop.current.infectious.length
    ∧ (advCurrentEuler pop tdot dt).severe.length = pop.current.infectious.length
    ∧ (advCurrentEuler pop tdot dt).critical.length = pop.current.infectious.length
    ∧ (advCurrentEuler pop tdot dt).overflow.length = pop.current.infectious.length := by
  simp [advCurrentEuler]

/-- Claim C10: the redistribution phase conserves `critical[a] +
overflow[a]` for every age group (both loops only transfer between the
two compartments of one age group), keeps the lengths of both arrays,
and modifies no field other than `critical` and `overflow`: every other
current field and the whole cumulative record equal the plain Euler
update. -/
theorem advanceState_redistribution_conserves (now : ℚ) (pop : SimulationTimePoint)
    (tdot : TimeDerivative) (dt beds : ℚ) :
    List.zipWith (· + ·) (advanceState now pop tdot dt beds).current.critical
        (advanceState now pop tdot dt beds).current.overflow =
      List.zipWith (· + ·) (advCurrentEuler pop tdot dt).critical
        (advCurrentEuler pop tdot dt).overflow
    ∧ (advanceState now pop tdot dt beds).current.critical.length =
      (advCurrentEuler pop tdot dt).critical.length
    ∧ (advanceState now pop tdot dt beds).current.overflow.length =
      (advCurrentEuler pop tdot dt).overflow.length
    ∧ (advanceState now pop tdot dt beds).current.susceptible =
      (advCurrentEuler pop tdot dt).susceptible
    ∧ (advanceState now pop tdot dt beds).current.exposed =
      (advCurrentEuler pop tdot dt).exposed
    ∧ (advanceState now pop tdot dt beds).current.infectious =
      (advCurrentEuler pop tdot dt).infectious
    ∧ (advanceState now pop tdot dt beds).current.severe =
      (advCurrentEuler pop tdot dt).severe
    ∧ (advanceState now pop tdot dt beds).cumulative = advCumulativeEuler pop tdot dt := by
  obtain ⟨hzip, hl1, hl2⟩ := redistribute_spec pop.current.critical.length beds
    (advCurrentEuler pop tdot dt).critical (advCurrentEuler pop tdot dt).overflow
  obtain ⟨-, -, -, -, hcl, hol⟩ := advCurrentEuler_lengths pop tdot dt
  have hzlen : ((advCurrentEuler pop tdot dt).critical.zip
      (advCurrentEuler pop tdot dt).overflow).length = pop.current.infectious.length := by
    rw [List.length_zip, hcl, hol, min_self]
  refine ⟨hzip, ?_, ?_, rfl, rfl, rfl, rfl, rfl⟩
  · rw [show (advanceState now pop tdot dt beds).current.critical =
      (redistribute pop.current.critical.length beds (advCurrentEuler pop tdot dt).critical
        (advCurrentEuler pop tdot dt).overflow).1 from rfl, hl1, hzlen, hcl]
  · rw [show (advanceState now pop tdot dt beds).current.overflow =
      (redistribute pop.current.critical.length beds (advCurrentEuler pop tdot dt).critical
        (advCurrentEuler pop tdot dt).overflow).2 from rfl, hl2, hzlen, hol]

theorem overCapGo_snd_add_sum (ps : List (ℚ × ℚ)) (f : ℚ) :
    (overCapGo ps f).2 + ((overCapGo ps f).1.map Prod.fst).sum =
      f + (ps.map Prod.fst).sum := by
  induction ps generalizing f with
  | nil => simp [overCapGo]
  | cons p rest ih =>
    obtain ⟨c, o⟩ := p
    simp only [overCapGo]
    split
    · split
      · simp only [List.map_cons, List.sum_cons]
        ring
      · simp only [List.map_cons, List.sum_cons]
        linarith [ih (f + c)]
    · simp

theorem overCapGo_pos_or_sum_zero (ps : List (ℚ × ℚ)) (f : ℚ) :
    0 ≤ (overCapGo ps f).2 ∨ ((overCapGo ps f).1.map Prod.fst).sum = 0 := by
  induction ps generalizing f with
  | nil => exact Or.inr (by simp [overCapGo])
  | cons p rest ih =>
    obtain ⟨c, o⟩ := p
    simp only [overCapGo]
    by_cases hf : f < 0
    · rw [if_pos hf]
      by_cases hc : c > -f
      · rw [if_pos hc]
        exact Or.inl (by norm_num)
      · rw [if_neg hc]
        rcases ih (f + c) with h | h
        · exact Or.inl (by simpa using h)
        · refine Or.inr ?_
          simp only [List.map_cons, List.sum_cons]
          simpa using h
    · rw [if_neg hf]
      exact Or.inl (by simpa using not_lt.mp hf)

theorem underCapGo_snd_add_sum (ps : List (ℚ × ℚ)) (f : ℚ) :
    (underCapGo ps f).2 + ((underCapGo ps f).1.map Prod.fst).sum =
      f + (ps.map Prod.fst).sum := by
  induction ps generalizing f with
  | nil => simp [underCapGo]
  | cons p rest ih =>
    obtain ⟨c, o⟩ := p
    simp only [underCapGo]
    split
    · split
      · simp only [List.map_cons, List.sum_cons]
        ring
      · simp only [List.map_cons, List.sum_cons]
        linarith [ih (f - o)]
    · simp

theorem underCapGo_snd_nonneg (ps : List (ℚ × ℚ)) (f : ℚ) (hf : 0 ≤ f) :
    0 ≤ (underCapGo ps f).2 := by
  induction ps generalizing f with
  | nil => simpa [underCapGo] using hf
  | cons p rest ih =>
    obtain ⟨c, o⟩ := p
    simp only [underCapGo]
    by_cases h1 : f > 0
    · rw [if_pos h1]
      by_cases h2 : o > f
      · rw [if_pos h2]
      · rw [if_neg h2]
        simpa using ih (f - o) (by linarith [not_lt.mp h2])
    · rw [if_neg h1]
      simpa using hf

/-- After redistribution the critical array sums to at most `beds`,
provided the Euler-updated critical entries are nonnegative, `beds ≥ 0`,
the loop bound covers the whole array, and the two arrays have equal
length. -/
theorem redistribute_sum_le (bound : ℕ) (beds : ℚ) (crit ovf : List ℚ)
    (hbeds : 0 ≤ beds)
    (hb : crit.length ≤ bound) (hlo : crit.length = ovf.length) :
    listSum (redistribute bound beds crit ovf).1 ≤ beds := by
  rw [listSum_eq_sum]
  unfold redistribute redistributeList
  have hplen : (crit.zip ovf).length = crit.length := by
    rw [List.length_zip, hlo, min_self]
  have htake : (crit.zip ovf).take bound = crit.zip ovf :=
    List.take_of_length_le (by rw [hplen]; exact hb)
  have hdrop : (crit.zip ovf).drop bound = [] :=
    List.drop_eq_nil_of_le (by rw [hplen]; exact hb)
  rw [htake, hdrop, List.append_nil]
  set pre := (crit.zip ovf).reverse with hpre
  set r1 := overCapGo pre (beds - listSum crit) with hr1
  set r2 := underCapGo r1.1.reverse r1.2 with hr2
  have hmapfst : (crit.zip ovf).map Prod.fst = crit :=
    List.map_fst_zip _ _ (le_of_eq hlo)
  have hpre_sum : (pre.map Prod.fst).sum = crit.sum := by
    rw [hpre, List.map_reverse, List.sum_reverse, hmapfst]
  have hls : listSum crit = crit.sum := listSum_eq_sum crit
  have h1 := overCapGo_snd_add_sum pre (beds - listSum crit)
  rw [hpre_sum, ← hr1] at h1
  have hr12 : 0 ≤ r1.2 := by
    rcases overCapGo_pos_or_sum_zero pre (beds - listSum crit) with h | h
    · exact h
    · rw [← hr1] at h
      linarith [h1]
  have h3 := underCapGo_snd_add_sum r1.1.reverse r1.2
  have hrev : (r1.1.reverse.map Prod.fst).sum = (r1.1.map Prod.fst).sum := by
    rw [List.map_reverse, List.sum_reverse]
  have h4 := underCapGo_snd_nonneg r1.1.reverse r1.2 hr12
  rw [← hr2] at h3 h4
  change (r2.1.map Prod.fst).sum ≤ beds
  linarith [h1, h3]

/-- Claim C1: for every input state (with the data-model shape invariant
that the critical array is at least as long as the infectious array,
which fixes the redistribution loop bound), every derivative, every
`dt ≥ 0` and every `icuBeds ≥ 0`, the state returned by `advanceState`
satisfies `Σ_a critical[a] ≤ icuBeds`. -/
theorem advanceState_icu_capacity (now : ℚ) (pop : SimulationTimePoint)
    (tdot : TimeDerivative) (dt beds : ℚ) (hdt : 0 ≤ dt) (hbeds : 0 ≤ beds)
    (hshape : pop.current.infectious.length ≤ pop.current.critical.length) :
    listSum (advanceState now pop tdot dt beds).current.critical ≤ beds := by
  obtain ⟨-, -, -, -, hcl, hol⟩ := advCurrentEuler_lengths pop tdot dt
  exact redistribute_sum_le _ _ _ _ hbeds (by rw [hcl]; exact hshape)
    (by rw [hcl, hol])

/-- Witness for claim C1 at `Wpop`, `WTD`, `dt = 1`, `icuBeds = 5`. -/
theorem advanceState_icu_capacity_witness :
    0 ≤ (1 : ℚ) ∧ 0 ≤ (5 : ℚ) ∧
      Wpop.current.infectious.length ≤ Wpop.current.critical.length ∧
      listSum (advanceState 0 Wpop WTD 1 5).current.critical ≤ 5 :=
  ⟨by norm_num, by norm_num, by decide,
    advanceState_icu_capacity 0 Wpop WTD 1 5 (by norm_num) (by norm_num) (by decide)⟩

/-- All entries of a list are nonnegative. -/
def allNonneg (xs : List ℚ) : Prop := ∀ x ∈ xs, 0 ≤ x

/-- Every stock and cumulative array of a state is entrywise
nonnegative. -/
def stateNonneg (s : SimulationTimePoint) : Prop :=
  allNonneg s.current.susceptible ∧ (∀ row ∈ s.current.exposed, allNonneg row) ∧
    allNonneg s.current.infectious ∧ allNonneg s.current.severe ∧
    allNonneg s.current.critical ∧ allNonneg s.current.overflow ∧
    allNonneg s.cumulative.recovered ∧ allNonneg s.cumulative.hospitalized ∧
    allNonneg s.cumulative.critical ∧ allNonneg s.cumulative.fatality

/-- The Euler phase computes `x' = max(0, x + dt · dx)` at index `a`
(stage `i` for the exposed chain) for every stock and cumulative field. -/
def eulerMatchesSpec (pop : SimulationTimePoint) (tdot : TimeDerivative)
    (dt : ℚ) (a i : ℕ) : Prop :=
  (advCurrentEuler pop tdot dt).susceptible.getD a 0 =
    max 0 (pop.current.susceptible.getD a 0 + dt * tdot.current.susceptible.getD a 0)
  ∧ ((advCurrentEuler pop tdot dt).exposed.getD a []).getD i 0 =
    max 0 ((pop.current.exposed.getD a []).getD i 0 +
      dt * (tdot.current.exposed.getD a []).getD i 0)
  ∧ (advCurrentEuler pop tdot dt).infectious.getD a 0 =
    max 0 (pop.current.infectious.getD a 0 + dt * tdot.current.infectious.getD a 0)
  ∧ (advCurrentEuler pop tdot dt).severe.getD a 0 =
    max 0 (pop.current.severe.getD a 0 + dt * tdot.current.severe.getD a 0)
  ∧ (advCurrentEuler pop tdot dt).critical.getD a 0 =
    max 0 (pop.current.critical.getD a 0 + dt * tdot.current.critical.getD a 0)
  ∧ (advCurrentEuler pop tdot dt).overflow.getD a 0 =
    max 0 (pop.current.overflow.getD a 0 + dt * tdot.current.overflow.getD a 0)
  ∧ (advCumulativeEuler pop tdot dt).recovered.getD a 0 =
    max 0 (pop.cumulative.recovered.getD a 0 + dt * tdot.cumulative.recovered.getD a 0)
  ∧ (advCumulativeEuler pop tdot dt).hospitalized.getD a 0 =
    max 0 (pop.cumulative.hospitalized.getD a 0 + dt * tdot.cumulative.hospitalized.getD a 0)
  ∧ (advCumulativeEuler pop tdot dt).critical.getD a 0 =
    max 0 (pop.cumulative.critical.getD a 0 + dt * tdot.cumulative.critical.getD a 0)
  ∧ (advCumulativeEuler pop tdot dt).fatality.getD a 0 =
    max 0 (pop.cumulative.fatality.getD a 0 + dt * tdot.cumulative.fatality.getD a 0)

theorem allNonneg_range_map_gz (n : ℕ) (g : ℕ → ℚ) :
    allNonneg ((List.range n).map fun a => gz (g a)) := by
  intro x hx
  rcases List.mem_map.mp hx with ⟨a, -, rfl⟩
  exact gz_nonneg _

theorem overCapGo_mem_nonneg (ps : List (ℚ × ℚ)) (f : ℚ)
    (h : ∀ p ∈ ps, 0 ≤ p.1 ∧ 0 ≤ p.2) :
    ∀ p ∈ (overCapGo ps f).1, 0 ≤ p.1 ∧ 0 ≤ p.2 := by
  induction ps generalizing f with
  | nil =>
    intro p hp
    simp [overCapGo] at hp
  | cons q rest ih =>
    obtain ⟨c, o⟩ := q
    have hco := h (c, o) (List.mem_cons_self _ _)
    have hrest : ∀ p ∈ rest, 0 ≤ p.1 ∧ 0 ≤ p.2 :=
      fun p hp => h p (List.mem_cons_of_mem _ hp)
    simp only [overCapGo]
    by_cases hf : f < 0
    · rw [if_pos hf]
      by_cases hc2 : c > -f
      · rw [if_pos hc2]
        intro p hp
        rcases List.mem_cons.mp hp with rfl | hp
        · exact ⟨show (0:ℚ) ≤ c + f by linarith [hco.1],
            show (0:ℚ) ≤ o - f by linarith [hco.2]⟩
        · exact hrest p hp
      · rw [if_neg hc2]
        intro p hp
        rcases List.mem_cons.mp hp with rfl | hp
        · exact ⟨le_refl 0, show (0:ℚ) ≤ o + c by linarith [hco.1, hco.2]⟩
        · exact ih (f + c) hrest p hp
    · rw [if_neg hf]
      exact h

theorem underCapGo_mem_nonneg (ps : List (ℚ × ℚ)) (f : ℚ)
    (h : ∀ p ∈ ps, 0 ≤ p.1 ∧ 0 ≤ p.2) :
    ∀ p ∈ (underCapGo ps f).1, 0 ≤ p.1 ∧ 0 ≤ p.2 := by
  induction ps generalizing f with
  | nil =>
    intro p hp
    simp [underCapGo] at hp
  | cons q rest ih =>
    obtain ⟨c, o⟩ := q
    have hco := h (c, o) (List.mem_cons_self _ _)
    have hrest : ∀ p ∈ rest, 0 ≤ p.1 ∧ 0 ≤ p.2 :=
      fun p hp => h p (List.mem_cons_of_mem _ hp)
    simp only [underCapGo]
    by_cases h1 : f > 0
    · rw [if_pos h1]
      by_cases h2 : o > f
      · rw [if_pos h2]
        intro p hp
        rcases List.mem_cons.mp hp with rfl | hp
        · exact ⟨show (0:ℚ) ≤ c + f by linarith [hco.1],
            show (0:ℚ) ≤ o - f by linarith⟩
        · exact hrest p hp
      · rw [if_neg h2]
        intro p hp
        rcases List.mem_cons.mp hp with rfl | hp
        · exact ⟨show (0:ℚ) ≤ c + o by linarith [hco.1, hco.2], le_refl 0⟩
        · exact ih (f - o) hrest p hp
    · rw [if_neg h1]
      exact h

theorem redistribute_mem_nonneg (bound : ℕ) (beds : ℚ) (crit ovf : List ℚ)
    (hc : ∀ x ∈ crit, 0 ≤ x) (ho : ∀ x ∈ ovf, 0 ≤ x) :
    (∀ x ∈ (redistribute bound beds crit ovf).1, 0 ≤ x) ∧
      ∀ x ∈ (redistribute bound beds crit ovf).2, 0 ≤ x := by
  have hpairs : ∀ p ∈ crit.zip ovf, 0 ≤ p.1 ∧ 0 ≤ p.2 := by
    intro p hp
    have h12 := List.of_mem_zip (a := p.1) (b := p.2) (by simpa using hp)
    exact ⟨hc _ h12.1, ho _ h12.2⟩
  have hfin : ∀ p ∈ redistributeList bound beds crit ovf, 0 ≤ p.1 ∧ 0 ≤ p.2 := by
    intro p hp
    unfold redistributeList at hp
    rcases List.mem_append.mp hp with hp | hp
    · refine underCapGo_mem_nonneg _ _ ?_ p hp
      intro q hq
      rw [List.mem_reverse] at hq
      refine overCapGo_mem_nonneg _ _ ?_ q hq
      intro q2 hq2
      rw [List.mem_reverse] at hq2
      exact hpairs q2 (List.mem_of_mem_take hq2)
    · exact hpairs p (List.mem_of_mem_drop hp)
  constructor <;>
    · intro x hx
      simp only [redistribute] at hx
      rcases List.mem_map.mp hx with ⟨p, hp, rfl⟩
      first
        | exact (hfin p hp).1
        | exact (hfin p hp).2

/-- Claim C2: `advanceState` applies the clamped Euler rule
`x' = max(0, x + dt·dx/dt)` to every stock and cumulative field, and the
subsequent bed redistribution never drives any field below zero: every
field of the returned state is entrywise ≥ 0 (for any `dt ≥ 0`,
`icuBeds ≥ 0` as the claim quantifies, though the zero-clamp makes the
conclusion hold for these inputs regardless). -/
theorem advanceState_nonneg_euler_clamp (now : ℚ) (pop : SimulationTimePoint)
    (tdot : TimeDerivative) (dt beds : ℚ) (a i : ℕ) (hdt : 0 ≤ dt) (hbeds : 0 ≤ beds)
    (ha : a < pop.current.infectious.length)
    (hi : i < (pop.current.exposed.getD a []).length) :
    eulerMatchesSpec pop tdot dt a i ∧ stateNonneg (advanceState now pop tdot dt beds) := by
  constructor
  · unfold eulerMatchesSpec
    refine ⟨?_, ?_, ?_, ?_, ?_, ?_, ?_, ?_, ?_, ?_⟩
    · simp only [advCurrentEuler]
      rw [getD_range_map _ _ ha, gz_eq_max]
    · simp only [advCurrentEuler]
      rw [getD_range_map _ _ ha,
        getD_range_map _ _ (lt_of_lt_of_le hi (le_max_left _ _)), if_pos hi, gz_eq_max]
    · simp only [advCurrentEuler]
      rw [getD_range_map _ _ ha, gz_eq_max]
    · simp only [advCurrentEuler]
      rw [getD_range_map _ _ ha, gz_eq_max]
    · simp only [advCurrentEuler]
      rw [getD_range_map _ _ ha, gz_eq_max]
    · simp only [advCurrentEuler]
      rw [getD_range_map _ _ ha, gz_eq_max]
    · simp only [advCumulativeEuler]
      rw [getD_range_map _ _ ha, gz_eq_max]
    · simp only [advCumulativeEuler]
      rw [getD_range_map _ _ ha, gz_eq_max]
    · simp only [advCumulativeEuler]
      rw [getD_range_map _ _ ha, gz_eq_max]
    · simp only [advCumulativeEuler]
      rw [getD_range_map _ _ ha, gz_eq_max]
  · have hcrit : ∀ x ∈ (advCurrentEuler pop tdot dt).critical, 0 ≤ x := by
      simp only [advCurrentEuler]
      exact allNonneg_range_map_gz _ _
    have hovf : ∀ x ∈ (advCurrentEuler pop tdot dt).overflow, 0 ≤ x := by
      simp only [advCurrentEuler]
      exact allNonneg_range_map_gz _ _
    obtain ⟨hr1, hr2⟩ := redistribute_mem_nonneg pop.current.critical.length beds
      (advCurrentEuler pop tdot dt).critical (advCurrentEuler pop tdot dt).overflow
      hcrit hovf
    refine ⟨?_, ?_, ?_, ?_, hr1, hr2, ?_, ?_, ?_, ?_⟩
    · simp only [advanceState, advCurrent, advCurrentEuler]
      exact allNonneg_range_map_gz _ _
    · intro row hrow x hx
      simp only [advanceState, advCurrent, advCurrentEuler] at hrow
      rcases List.mem_map.mp hrow with ⟨age, -, rfl⟩
      rcases List.mem_map.mp hx with ⟨j, -, rfl⟩
      split
      · exact gz_nonneg _
      · exact le_refl 0
    · simp only [advanceState, advCurrent, advCurrentEuler]
      exact allNonneg_range_map_gz _ _
    · simp only [advanceState, advCurrent, advCurrentEuler]
      exact allNonneg_range_map_gz _ _
    · simp only [advanceState, advCumulativeEuler]
      exact allNonneg_range_map_gz _ _
    · simp only [advanceState, advCumulativeEuler]
      exact allNonneg_range_map_gz _ _
    · simp only [advanceState, advCumulativeEuler]
      exact allNonneg_range_map_gz _ _
    · simp only [advanceState, advCumulativeEuler]
      exact allNonneg_range_map_gz _ _

/-- Witness for claim C2 at `Wpop`, `WTD`, `dt = 1`, `icuBeds = 5`,
`a = 0`, `i = 0`. -/
theorem advanceState_nonneg_euler_clamp_witness :
    0 ≤ (1 : ℚ) ∧ 0 ≤ (5 : ℚ) ∧ 0 < Wpop.current.infectious.length ∧
      0 < (Wpop.current.exposed.getD 0 []).length ∧
      (eulerMatchesSpec Wpop WTD 1 0 0 ∧ stateNonneg (advanceState 0 Wpop WTD 1 5)) :=
  ⟨by norm_num, by norm_num, by decide, by decide,
    advanceState_nonneg_euler_clamp 0 Wpop WTD 1 5 0 0 (by norm_num) (by norm_num)
      (by decide) (by decide)⟩

/-- The spec's `ShapeMismatch` validity condition: every per-age-group
parameter array has the state's age-group count, the state's own per-age
arrays agree, and the exposed chain length is consistent across age
groups. -/
def shapesOK (pop : SimulationTimePoint) (P : ModelParams) : Prop :=
  P.importsPerDay.length = pop.current.infectious.length ∧
    P.fracIsolated.length = pop.current.infectious.length ∧
    P.rateRecovery.length = pop.current.infectious.length ∧
    P.rateSevere.length = pop.current.infectious.length ∧
    P.rateDischarge.length = pop.current.infectious.length ∧
    P.rateCritical.length = pop.current.infectious.length ∧
    P.rateStabilize.length = pop.current.infectious.length ∧
    P.rateFatality.length = pop.current.infectious.length ∧
    P.rateOverflowFatality.length = pop.current.infectious.length ∧
    pop.current.susceptible.length = pop.current.infectious.length ∧
    pop.current.exposed.length = pop.current.infectious.length ∧
    pop.current.severe.length = pop.current.infectious.length ∧
    pop.current.critical.length = pop.current.infectious.length ∧
    pop.current.overflow.length = pop.current.infectious.length ∧
    ∀ r1 ∈ pop.current.exposed, ∀ r2 ∈ pop.current.exposed, r1.length = r2.length

/-- A well-shaped TWO-age-group state, whose shape disagrees with the
one-age-group parameter set `WP`. -/
def Bpop : SimulationTimePoint :=
  { time := 0
    current :=
      { susceptible := [9, 9], exposed := [[1], [1]], infectious := [1, 1],
        severe := [0, 0], critical := [0, 0], overflow := [0, 0] }
    cumulative :=
      { recovered := [0, 0], hospitalized := [0, 0], critical := [0, 0],
        fatality := [0, 0] } }

theorem stepODE_susceptible_length (cl : ℕ → ℚ) (pop : SimulationTimePoint)
    (P : ModelParams) (dt : ℚ) :
    (stepODE cl pop P dt).current.susceptible.length = pop.current.infectious.length := by
  simp [stepODE, advanceState, advCurrent, advCurrentEuler]

theorem stepODE_infectious_length (cl : ℕ → ℚ) (pop : SimulationTimePoint)
    (P : ModelParams) (dt : ℚ) :
    (stepODE cl pop P dt).current.infectious.length = pop.current.infectious.length := by
  simp [stepODE, advanceState, advCurrent, advCurrentEuler]

theorem foldl_stepODE_susceptible_length (cl : ℕ → ℕ → ℚ) (P : ModelParams) (dt : ℚ) :
    ∀ (l : List ℕ) (s : SimulationTimePoint), l ≠ [] →
      (l.foldl (fun s i => stepODE (cl i) s P dt) s).current.susceptible.length =
        s.current.infectious.length := by
  intro l
  induction l with
  | nil => intro s h; exact absurd rfl h
  | cons x xs ih =>
    intro s h
    simp only [List.foldl_cons]
    cases xs with
    | nil => simpa using stepODE_susceptible_length (cl x) s P dt
    | cons y ys =>
      rw [ih (stepODE (cl x) s P dt) (by simp)]
      exact stepODE_infectious_length (cl x) s P dt

/-- Claim C9 (amended): neither `fluxes` nor `evolve` performs any shape
validation.  Whenever the `fluxes` loop runs to completion in JS (an
exposed row exists for every age group — otherwise JS throws a
`TypeError` reading `.length` of `undefined`, not a `ShapeMismatch`),
it returns a complete flux set whose every array is sized by the state's
infectious array, regardless of the parameter arrays' lengths: no
`ShapeMismatch` condition exists anywhere in the code. -/
theorem fluxes_no_shape_validation (t : ℚ) (pop : SimulationTimePoint) (P : ModelParams)
    (hrows : pop.current.infectious.length ≤ pop.current.exposed.length) :
    (fluxes t pop P).susceptible.length = pop.current.infectious.length
    ∧ (fluxes t pop P).exposed.length = pop.current.infectious.length
    ∧ (fluxes t pop P).infectious.severe.length = pop.current.infectious.length
    ∧ (fluxes t pop P).infectious.recovered.length = pop.current.infectious.length
    ∧ (fluxes t pop P).severe.critical.length = pop.current.infectious.length
    ∧ (fluxes t pop P).severe.recovered.length = pop.current.infectious.length
    ∧ (fluxes t pop P).critical.severe.length = pop.current.infectious.length
    ∧ (fluxes t pop P).critical.fatality.length = pop.current.infectious.length
    ∧ (fluxes t pop P).overflow.severe.length = pop.current.infectious.length
    ∧ (fluxes t pop P).overflow.fatality.length = pop.current.infectious.length := by
  refine ⟨?_, ?_, ?_, ?_, ?_, ?_, ?_, ?_, ?_, ?_⟩ <;> simp [fluxes]

/-- Witness for the amended claim C9 at `t = 0`, `Bpop`, `WP`. -/
theorem fluxes_no_shape_validation_witness :
    Bpop.current.infectious.length ≤ Bpop.current.exposed.length ∧
      (fluxes 0 Bpop WP).susceptible.length = Bpop.current.infectious.length :=
  ⟨by decide, (fluxes_no_shape_validation 0 Bpop WP (by decide)).1⟩

/-- Counterexample to claim C9 as stated: `Bpop` (two age groups) and
`WP` (one-age-group parameter arrays) mismatch, yet `fluxes` returns a
complete two-age-group flux set and `evolve` returns a complete state —
nothing aborts, no `ShapeMismatch` error is signalled. -/
theorem shape_mismatch_not_aborted :
    ¬ shapesOK Bpop WP
    ∧ (fluxes 0 Bpop WP).susceptible.length = 2
    ∧ (evolve (fun _ _ => 0) Bpop WP 0 (fun x => x)).current.susceptible.length = 2 := by
  refine ⟨fun h => absurd h.1 (by decide), by decide, ?_⟩
  have hn : (nStepsOf Bpop.time 0).toNat = 1 := by
    have ht : Bpop.time = 0 := rfl
    have hr : jsRound ((0 - Bpop.time) / eulerStep) = 0 := by
      rw [ht]
      unfold jsRound
      show (⌊((0 - 0 : ℚ) / eulerStep + 1 / 2 : ℚ)⌋ : ℤ) = 0
      rw [Int.floor_eq_iff]
      constructor <;> norm_num [eulerStep]
    unfold nStepsOf
    rw [hr, max_eq_left (by norm_num : (0 : ℤ) ≤ 1)]
    rfl
  simp only [evolve]
  rw [hn]
  rw [show List.range 1 = [0] from rfl]
  rw [foldl_stepODE_susceptible_length _ _ _ [0] Bpop (by simp)]
  decide

/-- One RK4 step is independent of the wall-clock (`Date.now()`) values:
every intermediate state's `time` field is written from the clock but
never read (`fluxes` receives its timestamp as a separate argument and
reads only `current`), and the final state's `time` is overwritten with
`t2`. -/
theorem stepODE_clock_irrelevant (cl cl2 : ℕ → ℚ) (pop : SimulationTimePoint)
    (P : ModelParams) (dt : ℚ) :
    stepODE cl pop P dt = stepODE cl2 pop P dt := rfl

/-- Claim C8: `evolve` is deterministic and independent of both its
`sample` argument (accepted, never used) and the wall-clock values read
by the intermediate `advanceState` calls: any two runs with the same
`(state, params, targetTime)` return identical states, time field
included. -/
theorem evolve_deterministic (cl cl2 : ℕ → ℕ → ℚ) (pop : SimulationTimePoint)
    (P : ModelParams) (tMax : ℚ) (sample1 sample2 : ℚ → ℚ) :
    evolve cl pop P tMax sample1 = evolve cl2 pop P tMax sample2 := by
  simp only [evolve]
  have hf : (fun (s : SimulationTimePoint) (i : ℕ) =>
        stepODE (cl i) s P ((tMax - pop.time) / ((nStepsOf pop.time tMax : ℤ) : ℚ))) =
      fun (s : SimulationTimePoint) (i : ℕ) =>
        stepODE (cl2 i) s P ((tMax - pop.time) / ((nStepsOf pop.time tMax : ℤ) : ℚ)) := by
    funext s i
    exact stepODE_clock_irrelevant (cl i) (cl2 i) s P _
  rw [hf]

/-! ### Shape bookkeeping for the Stage Combiner (claim C7) -/

/-- A derivative whose every per-age array has length `n` and whose
exposed row for age `a < n` has `rows a` stages. -/
structure Shaped (g : TimeDerivative) (n : ℕ) (rows : ℕ → ℕ) : Prop where
  sus : g.current.susceptible.length = n
  expLen : g.current.exposed.length = n
  inf : g.current.infectious.length = n
  sev : g.current.severe.length = n
  crit : g.current.critical.length = n
  ovf : g.current.overflow.length = n
  rcv : g.cumulative.recovered.length = n
  hos : g.cumulative.hospitalized.length = n
  ccrit : g.cumulative.critical.length = n
  fat : g.cumulative.fatality.length = n
  rowsEq : ∀ a, a < n → (g.current.exposed.getD a []).length = rows a

theorem Shaped.of_eq {g : TimeDerivative} {n n2 : ℕ} {rows rows2 : ℕ → ℕ}
    (h : Shaped g n2 rows2) (hn : n2 = n) (hr : ∀ a, a < n → rows2 a = rows a) :
    Shaped g n rows := by
  subst hn
  exact ⟨h.sus, h.expLen, h.inf, h.sev, h.crit, h.ovf, h.rcv, h.hos, h.ccrit, h.fat,
    fun a ha => (hr a ha) ▸ h.rowsEq a ha⟩

theorem rangeMapZero (n : ℕ) : (List.range n).map (fun _ => (0 : ℚ)) = List.replicate n 0 := by
  rw [List.map_const']
  simp

theorem range_map_getD {α β : Type} (l : List α) (d : α) (f : α → β) :
    (List.range l.length).map (fun a => f (l.getD a d)) = l.map f := by
  apply List.ext_getElem (by simp)
  intro i h1 h2
  simp only [List.getElem_map, List.getElem_range]
  congr 1
  exact List.getD_eq_getElem l d (by simpa using h2)

theorem getD_replicate_zero (n a : ℕ) : (List.replicate n (0 : ℚ)).getD a 0 = 0 := by
  by_cases h : a < n
  · rw [List.getD_eq_getElem _ _ (by simpa using h), List.getElem_replicate]
  · rw [List.getD_eq_default _ _ (by simpa using not_lt.mp h)]

theorem addScaledRow_getD (w : ℚ) (acc g : List ℚ) (a : ℕ)
    (h1 : a < acc.length) (h2 : a < g.length) :
    (addScaledRow w acc g).getD a 0 = acc.getD a 0 + w * g.getD a 0 := by
  unfold addScaledRow
  exact zipWith_getD _ 0 0 0 _ _ _ h1 h2

/-- Entry `a` of the four-fold `sum += w·grad` accumulation over a
zero-initialised row equals the closed-form weighted sum, for rows of
equal length `n` (entries beyond `n` read the default `0` on both
sides). -/
theorem addChainRow_getD (w1 w2 w3 w4 : ℚ) (n : ℕ) (as bs cs ds : List ℚ)
    (ha : as.length = n) (hb : bs.length = n) (hc : cs.length = n) (hd : ds.length = n)
    (a : ℕ) :
    (addScaledRow w4 (addScaledRow w3 (addScaledRow w2
        (addScaledRow w1 (List.replicate n 0) as) bs) cs) ds).getD a 0 =
      w1 * as.getD a 0 + w2 * bs.getD a 0 + w3 * cs.getD a 0 + w4 * ds.getD a 0 := by
  have l0 : (List.replicate n (0 : ℚ)).length = n := by simp
  have l1 : (addScaledRow w1 (List.replicate n 0) as).length = n := by
    simp [addScaledRow, ha]
  have l2 : (addScaledRow w2 (addScaledRow w1 (List.replicate n 0) as) bs).length = n := by
    simp [addScaledRow, ha, hb]
  have l3 : (addScaledRow w3 (addScaledRow w2 (addScaledRow w1
      (List.replicate n 0) as) bs) cs).length = n := by
    simp [addScaledRow, ha, hb, hc]
  by_cases h : a < n
  · rw [addScaledRow_getD _ _ _ _ (by rw [l3]; exact h) (by rw [hd]; exact h)]
    rw [addScaledRow_getD _ _ _ _ (by rw [l2]; exact h) (by rw [hc]; exact h)]
    rw [addScaledRow_getD _ _ _ _ (by rw [l1]; exact h) (by rw [hb]; exact h)]
    rw [addScaledRow_getD _ _ _ _ (by rw [l0]; exact h) (by rw [ha]; exact h)]
    rw [getD_replicate_zero]
    ring
  · have hge := not_lt.mp h
    have l4 : (addScaledRow w4 (addScaledRow w3 (addScaledRow w2 (addScaledRow w1
        (List.replicate n 0) as) bs) cs) ds).length = n := by
      simp [addScaledRow, ha, hb, hc, hd]
    rw [List.getD_eq_default _ _ (by rw [l4]; exact hge),
      List.getD_eq_default _ _ (by rw [ha]; exact hge),
      List.getD_eq_default _ _ (by rw [hb]; exact hge),
      List.getD_eq_default _ _ (by rw [hc]; exact hge),
      List.getD_eq_default _ _ (by rw [hd]; exact hge)]
    ring

/-- The accumulator record that `sumDerivatives` zero-initialises from
`grads[0]` before folding. -/
def quadInit (g0 : TimeDerivative) : TimeDerivative :=
  { current :=
      { susceptible := (List.range g0.current.susceptible.length).map fun _ => (0 : ℚ)
        exposed := (List.range g0.current.susceptible.length).map fun age =>
          (g0.current.exposed.getD age []).map fun _ => (0 : ℚ)
        infectious := (List.range g0.current.susceptible.length).map fun _ => (0 : ℚ)
        severe := (List.range g0.current.susceptible.length).map fun _ => (0 : ℚ)
        critical := (List.range g0.current.susceptible.length).map fun _ => (0 : ℚ)
        overflow := (List.range g0.current.susceptible.length).map fun _ => (0 : ℚ) }
    cumulative :=
      { recovered := (List.range g0.current.susceptible.length).map fun _ => (0 : ℚ)
        hospitalized := (List.range g0.current.susceptible.length).map fun _ => (0 : ℚ)
        critical := (List.range g0.current.susceptible.length).map fun _ => (0 : ℚ)
        fatality := (List.range g0.current.susceptible.length).map fun _ => (0 : ℚ) } }

/-- `sumDerivatives` on four gradients is the four-fold accumulation over
the zero accumulator. -/
theorem sumDerivatives_quad (g1 g2 g3 g4 : TimeDerivative) (w1 w2 w3 w4 : ℚ) :
    sumDerivatives [g1, g2, g3, g4] [w1, w2, w3, w4] =
      addScaled w4 (addScaled w3 (addScaled w2 (addScaled w1 (quadInit g1) g1) g2) g3) g4 :=
  rfl

/-- Stage `i` of exposed row `a` of the four-fold accumulation equals the
closed-form weighted sum, given equal shapes. -/
theorem addChainExposed_getD (w1 w2 w3 w4 : ℚ) (n : ℕ) (rows : ℕ → ℕ)
    (e1 e2 e3 e4 : List (List ℚ))
    (l1 : e1.length = n) (l2 : e2.length = n) (l3 : e3.length = n) (l4 : e4.length = n)
    (r1 : ∀ a, a < n → (e1.getD a []).length = rows a)
    (r2 : ∀ a, a < n → (e2.getD a []).length = rows a)
    (r3 : ∀ a, a < n → (e3.getD a []).length = rows a)
    (r4 : ∀ a, a < n → (e4.getD a []).length = rows a)
    (a i : ℕ) :
    ((List.zipWith (fun ar gr => addScaledRow w4 ar gr)
        (List.zipWith (fun ar gr => addScaledRow w3 ar gr)
          (List.zipWith (fun ar gr => addScaledRow w2 ar gr)
            (List.zipWith (fun ar gr => addScaledRow w1 ar gr)
              (e1.map fun row => row.map fun _ => (0 : ℚ)) e1) e2) e3) e4).getD a []).getD
        i 0 =
      w1 * (e1.getD a []).getD i 0 + w2 * (e2.getD a []).getD i 0 +
        w3 * (e3.getD a []).getD i 0 + w4 * (e4.getD a []).getD i 0 := by
  have L0 : (e1.map fun row => row.map fun _ => (0 : ℚ)).length = n := by simp [l1]
  have L1 : (List.zipWith (fun ar gr => addScaledRow w1 ar gr)
      (e1.map fun row => row.map fun _ => (0 : ℚ)) e1).length = n := by
    simp [l1]
  have L2 : (List.zipWith (fun ar gr => addScaledRow w2 ar gr)
      (List.zipWith (fun ar gr => addScaledRow w1 ar gr)
        (e1.map fun row => row.map fun _ => (0 : ℚ)) e1) e2).length = n := by
    simp [l1, l2]
  have L3 : (List.zipWith (fun ar gr => addScaledRow w3 ar gr)
      (List.zipWith (fun ar gr => addScaledRow w2 ar gr)
        (List.zipWith (fun ar gr => addScaledRow w1 ar gr)
          (e1.map fun row => row.map fun _ => (0 : ℚ)) e1) e2) e3).length = n := by
    simp [l1, l2, l3]
  by_cases h : a < n
  · rw [zipWith_getD _ ([] : List ℚ) ([] : List ℚ) ([] : List ℚ) _ _ _
        (by rw [L3]; exact h) (by rw [l4]; exact h)]
    rw [zipWith_getD _ ([] : List ℚ) ([] : List ℚ) ([] : List ℚ) _ _ _
        (by rw [L2]; exact h) (by rw [l3]; exact h)]
    rw [zipWith_getD _ ([] : List ℚ) ([] : List ℚ) ([] : List ℚ) _ _ _
        (by rw [L1]; exact h) (by rw [l2]; exact h)]
    rw [zipWith_getD _ ([] : List ℚ) ([] : List ℚ) ([] : List ℚ) _ _ _
        (by rw [L0]; exact h) (by rw [l1]; exact h)]
    have hmap : (e1.map fun row => row.map fun _ => (0 : ℚ)).getD a [] =
        (e1.getD a []).map fun _ => (0 : ℚ) := by
      simpa using List.getD_map e1 ([] : List ℚ) (fun row => row.map fun _ => (0 : ℚ)) (n := a)
    rw [hmap, List.map_const', r1 a h]
    exact addChainRow_getD w1 w2 w3 w4 (rows a) _ _ _ _ (r1 a h) (r2 a h) (r3 a h) (r4 a h) i
  · have hge := not_lt.mp h
    have L4 : (List.zipWith (fun ar gr => addScaledRow w4 ar gr)
        (List.zipWith (fun ar gr => addScaledRow w3 ar gr)
          (List.zipWith (fun ar gr => addScaledRow w2 ar gr)
            (List.zipWith (fun ar gr => addScaledRow w1 ar gr)
              (e1.map fun row => row.map fun _ => (0 : ℚ)) e1) e2) e3) e4).length = n := by
      simp [l1, l2, l3, l4]
    have z : ∀ (l : List (List ℚ)), l.length ≤ a → ((l.getD a []).getD i 0 : ℚ) = 0 := by
      intro l hl
      rw [List.getD_eq_default _ _ hl]
      simp
    rw [z _ (by rw [L4]; exact hge), z e1 (by rw [l1]; exact hge),
      z e2 (by rw [l2]; exact hge), z e3 (by rw [l3]; exact hge),
      z e4 (by rw [l4]; exact hge)]
    ring

/-- Entry-wise statement of claim C7's combiner contract: `tdot` is the
elementwise weighted sum `w1·k1 + w2·k2 + w3·k3 + w4·k4` over every
scalar and chain-stage field. -/
def combineMatches (w1 w2 w3 w4 : ℚ) (tdot k1 k2 k3 k4 : TimeDerivative) (a i : ℕ) :
    Prop :=
  tdot.current.susceptible.getD a 0 =
      w1 * k1.current.susceptible.getD a 0 + w2 * k2.current.susceptible.getD a 0 +
        w3 * k3.current.susceptible.getD a 0 + w4 * k4.current.susceptible.getD a 0
  ∧ (tdot.current.exposed.getD a []).getD i 0 =
      w1 * (k1.current.exposed.getD a []).getD i 0 +
        w2 * (k2.current.exposed.getD a []).getD i 0 +
        w3 * (k3.current.exposed.getD a []).getD i 0 +
        w4 * (k4.current.exposed.getD a []).getD i 0
  ∧ tdot.current.infectious.getD a 0 =
      w1 * k1.current.infectious.getD a 0 + w2 * k2.current.infectious.getD a 0 +
        w3 * k3.current.infectious.getD a 0 + w4 * k4.current.infectious.getD a 0
  ∧ tdot.current.severe.getD a 0 =
      w1 * k1.current.severe.getD a 0 + w2 * k2.current.severe.getD a 0 +
        w3 * k3.current.severe.getD a 0 + w4 * k4.current.severe.getD a 0
  ∧ tdot.current.critical.getD a 0 =
      w1 * k1.current.critical.getD a 0 + w2 * k2.current.critical.getD a 0 +
        w3 * k3.current.critical.getD a 0 + w4 * k4.current.critical.getD a 0
  ∧ tdot.current.overflow.getD a 0 =
      w1 * k1.current.overflow.getD a 0 + w2 * k2.current.overflow.getD a 0 +
        w3 * k3.current.overflow.getD a 0 + w4 * k4.current.overflow.getD a 0
  ∧ tdot.cumulative.recovered.getD a 0 =
      w1 * k1.cumulative.recovered.getD a 0 + w2 * k2.cumulative.recovered.getD a 0 +
        w3 * k3.cumulative.recovered.getD a 0 + w4 * k4.cumulative.recovered.getD a 0
  ∧ tdot.cumulative.hospitalized.getD a 0 =
      w1 * k1.cumulative.hospitalized.getD a 0 + w2 * k2.cumulative.hospitalized.getD a 0 +
        w3 * k3.cumulative.hospitalized.getD a 0 + w4 * k4.cumulative.hospitalized.getD a 0
  ∧ tdot.cumulative.critical.getD a 0 =
      w1 * k1.cumulative.critical.getD a 0 + w2 * k2.cumulative.critical.getD a 0 +
        w3 * k3.cumulative.critical.getD a 0 + w4 * k4.cumulative.critical.getD a 0
  ∧ tdot.cumulative.fatality.getD a 0 =
      w1 * k1.cumulative.fatality.getD a 0 + w2 * k2.cumulative.fatality.getD a 0 +
        w3 * k3.cumulative.fatality.getD a 0 + w4 * k4.cumulative.fatality.getD a 0

/-- `sumDerivatives` on four equally-shaped gradients is the elementwise
weighted sum, at every index (out-of-range indices read the default `0`
on both sides). -/
theorem sumDerivatives_combineMatches (g1 g2 g3 g4 : TimeDerivative) (w1 w2 w3 w4 : ℚ)
    (n : ℕ) (rows : ℕ → ℕ) (h1 : Shaped g1 n rows) (h2 : Shaped g2 n rows)
    (h3 : Shaped g3 n rows) (h4 : Shaped g4 n rows) (a i : ℕ) :
    combineMatches w1 w2 w3 w4 (sumDerivatives [g1, g2, g3, g4] [w1, w2, w3, w4])
      g1 g2 g3 g4 a i := by
  rw [sumDerivatives_quad]
  unfold combineMatches
  refine ⟨?_, ?_, ?_, ?_, ?_, ?_, ?_, ?_, ?_, ?_⟩
  · simp only [addScaled, quadInit]
    rw [rangeMapZero, h1.sus]
    exact addChainRow_getD w1 w2 w3 w4 n _ _ _ _ h1.sus h2.sus h3.sus h4.sus a
  · simp only [addScaled, quadInit]
    have he : g1.current.susceptible.length = g1.current.exposed.length := by
      rw [h1.sus, h1.expLen]
    rw [he, range_map_getD]
    exact addChainExposed_getD w1 w2 w3 w4 n rows _ _ _ _ h1.expLen h2.expLen h3.expLen
      h4.expLen h1.rowsEq h2.rowsEq h3.rowsEq h4.rowsEq a i
  · simp only [addScaled, quadInit]
    rw [rangeMapZero, h1.sus]
    exact addChainRow_getD w1 w2 w3 w4 n _ _ _ _ h1.inf h2.inf h3.inf h4.inf a
  · simp only [addScaled, quadInit]
    rw [rangeMapZero, h1.sus]
    exact addChainRow_getD w1 w2 w3 w4 n _ _ _ _ h1.sev h2.sev h3.sev h4.sev a
  · simp only [addScaled, quadInit]
    rw [rangeMapZero, h1.sus]
    exact addChainRow_getD w1 w2 w3 w4 n _ _ _ _ h1.crit h2.crit h3.crit h4.crit a
  · simp only [addScaled, quadInit]
    rw [rangeMapZero, h1.sus]
    exact addChainRow_getD w1 w2 w3 w4 n _ _ _ _ h1.ovf h2.ovf h3.ovf h4.ovf a
  · simp only [addScaled, quadInit]
    rw [rangeMapZero, h1.sus]
    exact addChainRow_getD w1 w2 w3 w4 n _ _ _ _ h1.rcv h2.rcv h3.rcv h4.rcv a
  · simp only [addScaled, quadInit]
    rw [rangeMapZero, h1.sus]
    exact addChainRow_getD w1 w2 w3 w4 n _ _ _ _ h1.hos h2.hos h3.hos h4.hos a
  · simp only [addScaled, quadInit]
    rw [rangeMapZero, h1.sus]
    exact addChainRow_getD w1 w2 w3 w4 n _ _ _ _ h1.ccrit h2.ccrit h3.ccrit h4.ccrit a
  · simp only [addScaled, quadInit]
    rw [rangeMapZero, h1.sus]
    exact addChainRow_getD w1 w2 w3 w4 n _ _ _ _ h1.fat h2.fat h3.fat h4.fat a

theorem shaped_derivative_fluxes (t : ℚ) (pop : SimulationTimePoint) (P : ModelParams) :
    Shaped (derivative (fluxes t pop P)) pop.current.infectious.length
      (fun a => (pop.current.exposed.getD a []).length) := by
  have hn : (fluxes t pop P).susceptible.length = pop.current.infectious.length := by
    simp [fluxes]
  refine ⟨?_, ?_, ?_, ?_, ?_, ?_, ?_, ?_, ?_, ?_, ?_⟩
  · simp [derivative, hn]
  · simp [derivative, hn]
  · simp [derivative, hn]
  · simp [derivative, hn]
  · simp [derivative, hn]
  · simp [derivative, hn]
  · simp [derivative, hn]
  · simp [derivative, hn]
  · simp [derivative, hn]
  · simp [derivative, hn]
  · intro a ha
    simp only [derivative]
    rw [getD_range_map _ _ (show a < (fluxes t pop P).susceptible.length by
      rw [hn]; exact ha)]
    simp only [List.length_map, List.length_range]
    simp only [fluxes]
    rw [getD_range_map _ _ ha]
    simp

theorem advanceState_infectious_length (now : ℚ) (pop : SimulationTimePoint)
    (tdot : TimeDerivative) (dt beds : ℚ) :
    (advanceState now pop tdot dt beds).current.infectious.length =
      pop.current.infectious.length := by
  simp [advanceState, advCurrent, advCurrentEuler]

theorem advanceState_exposed_row_length (now : ℚ) (pop : SimulationTimePoint)
    (tdot : TimeDerivative) (dt beds : ℚ) (a : ℕ)
    (ha : a < pop.current.infectious.length) :
    ((advanceState now pop tdot dt beds).current.exposed.getD a []).length =
      max (pop.current.exposed.getD a []).length
        (tdot.current.exposed.getD a []).length := by
  simp only [advanceState, advCurrent, advCurrentEuler]
  rw [getD_range_map _ _ ha]
  simp

/-- The derivative of the fluxes of an `advanceState` output keeps the
shape of the ORIGINAL state, provided the derivative used for the
advance had that shape (the exposed row of the advanced state has length
`max` of the two row lengths, which collapses). -/
theorem shaped_k_next (t now dtk beds : ℚ) (pop : SimulationTimePoint) (P : ModelParams)
    (k : TimeDerivative)
    (hk : Shaped k pop.current.infectious.length
      (fun a => (pop.current.exposed.getD a []).length)) :
    Shaped (derivative (fluxes t (advanceState now pop k dtk beds) P))
      pop.current.infectious.length
      (fun a => (pop.current.exposed.getD a []).length) := by
  refine (shaped_derivative_fluxes t (advanceState now pop k dtk beds) P).of_eq ?_ ?_
  · exact advanceState_infectious_length now pop k dtk beds
  · intro a ha
    rw [advanceState_exposed_row_length now pop k dtk beds a ha, hk.rowsEq a ha]
    exact Nat.max_self _

/-- Claim C7: one RK4 step evaluates `k1` at `t0` on the input state,
`k2`/`k3` at `t0 + dt/2` on states advanced by `dt/2` along `k1`/`k2`,
and `k4` at `t0 + dt` on a state advanced by `dt` along `k3`; the Stage
Combiner forms the elementwise sum `(1/6)k1 + (1/3)k2 + (1/3)k3 +
(1/6)k4` over every scalar and chain-stage field; the state is advanced
by `dt` along that combination with the final time set to `t0 + dt`; and
`params.ICUBeds` is the bed budget in all four intermediate advances and
the final one. -/
theorem stepODE_rk4_structure (cl : ℕ → ℚ) (pop : SimulationTimePoint)
    (P : ModelParams) (dt : ℚ) (a i : ℕ) :
    let k1 := derivative (fluxes pop.time pop P)
    let k2 := derivative (fluxes (pop.time + dt / 2 * msPerDay)
      (advanceState (cl 0) pop k1 (dt / 2) P.ICUBeds) P)
    let k3 := derivative (fluxes (pop.time + dt / 2 * msPerDay)
      (advanceState (cl 1) pop k2 (dt / 2) P.ICUBeds) P)
    let k4 := derivative (fluxes (pop.time + dt * msPerDay)
      (advanceState (cl 2) pop k3 dt P.ICUBeds) P)
    let tdot := sumDerivatives [k1, k2, k3, k4] [1/6, 1/3, 1/3, 1/6]
    stepODE cl pop P dt =
      { advanceState (cl 3) pop tdot dt P.ICUBeds with time := pop.time + dt * msPerDay }
    ∧ combineMatches (1/6) (1/3) (1/3) (1/6) tdot k1 k2 k3 k4 a i := by
  intro k1 k2 k3 k4 tdot
  have s1 : Shaped k1 pop.current.infectious.length
      (fun a => (pop.current.exposed.getD a []).length) :=
    shaped_derivative_fluxes pop.time pop P
  have s2 : Shaped k2 pop.current.infectious.length
      (fun a => (pop.current.exposed.getD a []).length) :=
    shaped_k_next _ _ _ _ pop P k1 s1
  have s3 : Shaped k3 pop.current.infectious.length
      (fun a => (pop.current.exposed.getD a []).length) :=
    shaped_k_next _ _ _ _ pop P k2 s2
  have s4 : Shaped k4 pop.current.infectious.length
      (fun a => (pop.current.exposed.getD a []).length) :=
    shaped_k_next _ _ _ _ pop P k3 s3
  exact ⟨rfl, sumDerivatives_combineMatches k1 k2 k3 k4 _ _ _ _
    _ _ s1 s2 s3 s4 a i⟩

end Covid
